import Mathlib

/-!
# hashnodebot: spam classification and update dispatch

A shallow embedding of `main.go` of the Telegram moderation bot.

* Go strings are byte sequences; `len` counts bytes and `+` is concatenation.
* Go `int` values are embedded as `Int`; the code only compares them, so no
  wrap-around can occur.
* The bot client (`tgbotapi`) and the network are external.  Every request the
  code sends is recorded, in order, in an explicit log; every reply the code
  reads is an input of the model.
* A nil pointer is `none`; dereferencing it makes the operation return `none`
  (for the handling task) or end as `panicked` (during start-up).
-/

set_option autoImplicit false

namespace Hashnodebot

/-! ## Strings -/

/-- A Go string: an immutable sequence of bytes. -/
abbrev GoString := List UInt8

/-- Go's builtin `len` on a string: its number of bytes, as an `int`. -/
def len (s : GoString) : Int := (s.length : Int)

/-- UTF-8 encoding of one code point, as done by the Go compiler for string
literals and by the JSON decoder for message fields (`utf8.EncodeRune`):
surrogates and out-of-range values become U+FFFD. -/
def encodeRune (r : Nat) : GoString :=
  if r ≤ 0x7F then [UInt8.ofNat r]
  else if r ≤ 0x7FF then
    [UInt8.ofNat (0xC0 ||| (r >>> 6)), UInt8.ofNat (0x80 ||| (r &&& 0x3F))]
  else if r > 0x10FFFF ∨ (0xD800 ≤ r ∧ r ≤ 0xDFFF) then [0xEF, 0xBF, 0xBD]
  else if r ≤ 0xFFFF then
    [UInt8.ofNat (0xE0 ||| (r >>> 12)), UInt8.ofNat (0x80 ||| ((r >>> 6) &&& 0x3F)),
     UInt8.ofNat (0x80 ||| (r &&& 0x3F))]
  else
    [UInt8.ofNat (0xF0 ||| (r >>> 18)), UInt8.ofNat (0x80 ||| ((r >>> 12) &&& 0x3F)),
     UInt8.ofNat (0x80 ||| ((r >>> 6) &&& 0x3F)), UInt8.ofNat (0x80 ||| (r &&& 0x3F))]

/-- The Go string holding the text `s`: the concatenated UTF-8 encodings of
its characters.  `s.length` is the number of characters of the text. -/
def utf8 (s : String) : GoString :=
  s.toList.flatMap (fun c => encodeRune c.toNat)

/-- Modelled from the spec: `strings.Contains(s, substr)` of the Go standard
library, which is not part of the repository: byte-wise, case-sensitive
containment; the empty string is contained in every string. -/
def strings.Contains : GoString → GoString → Bool
  | [], substr => substr.isEmpty
  | c :: cs, substr => substr.isPrefixOf (c :: cs) || strings.Contains cs substr

/-- The string `sub` occurs in `s` as a contiguous run of bytes. -/
def IsSubstring (sub s : GoString) : Prop :=
  ∃ pre post : GoString, s = pre ++ sub ++ post

/-! ## The classifier -/

/-- The function `checkIfSpammer` (main.go, lines 157-165). -/
def checkIfSpammer (username name : GoString) (length : Int) (illegalChars : GoString) : Bool :=
  if illegalChars ≠ [] && strings.Contains name illegalChars then
    true
  else if len username > length || len name > length then
    true
  else
    false

/-! ## Updates -/

/-- Modelled from the spec: `tgbotapi.User`, declared in the external client
library; only the fields read by `main.go` are kept. -/
structure User where
  ID : Int
  FirstName : GoString
  LastName : GoString
  UserName : GoString
  deriving DecidableEq, Repr

/-- Modelled from the spec: `tgbotapi.Chat`, of which only the id is read. -/
structure Chat where
  ID : Int
  deriving DecidableEq, Repr

/-- Modelled from the spec: `tgbotapi.Message`.  Following the data model of
the spec, a message always carries its identity (chat id and message id); the
list of new members and the left member are optional (nil pointers are
`none`).  A non-nil `NewChatMembers` may point to an empty list. -/
structure Message where
  MessageID : Int
  Chat : Chat
  NewChatMembers : Option (List User)
  LeftChatMember : Option User
  deriving DecidableEq, Repr

/-- Modelled from the spec: `tgbotapi.Update`, an inbound event with an
optional message. -/
structure Update where
  Message : Option Message
  deriving DecidableEq, Repr

/-- The two flags read by the update loop (main.go, lines 27-28). -/
structure Config where
  charlength : Int
  illegalChars : GoString
  deriving DecidableEq, Repr

/-! ## Effects of a handling task -/

/-- A request sent to the transport client by a handling task. -/
inductive Call where
  | deleteMessage (chatID : Int) (messageID : Int)
  | kickChatMember (chatID : Int) (userID : Int)
  deriving DecidableEq, Repr

/-- What a handling task has done so far: the requests sent to the transport,
oldest first, and the number of times `checkIfSpammer` was invoked. -/
structure Effects where
  calls : List Call
  checks : Nat
  deriving DecidableEq, Repr

/-- Nothing done yet. -/
def Effects.none : Effects := { calls := [], checks := 0 }

/-- The call `bot.DeleteMessage` of lines 90-93 and 107-110: the request is
sent and its reply is discarded. -/
def DeleteMessage (chatID messageID : Int) (e : Effects) : Effects :=
  { e with calls := e.calls ++ [Call.deleteMessage chatID messageID] }

/-- The call `bot.KickChatMember` of lines 97-102: the request is sent and its
reply is discarded. -/
def KickChatMember (chatID userID : Int) (e : Effects) : Effects :=
  { e with calls := e.calls ++ [Call.kickChatMember chatID userID] }

/-- The loop over the new members (main.go, lines 95-104). -/
def newMembersLoop (cfg : Config) (chatID : Int) : List User → Effects → Effects
  | [], e => e
  | user :: rest, e =>
    let e1 : Effects := { e with checks := e.checks + 1 }
    if checkIfSpammer user.UserName (user.FirstName ++ user.LastName)
        cfg.charlength cfg.illegalChars then
      newMembersLoop cfg chatID rest (KickChatMember chatID user.ID e1)
    else
      newMembersLoop cfg chatID rest e1

/-- The body of the handling goroutine (main.go, lines 85-112).  It reads
`update.Message.NewChatMembers` first, so it fails (`none`, a nil pointer
dereference) when the update has no message. -/
def handleTask (cfg : Config) (update : Update) (e : Effects) : Option Effects :=
  match update.Message with
  | Option.none => Option.none
  | some message =>
    match message.NewChatMembers with
    | some members =>
      some (newMembersLoop cfg message.Chat.ID members
        (DeleteMessage message.Chat.ID message.MessageID e))
    | Option.none =>
      match message.LeftChatMember with
      | some _ => some (DeleteMessage message.Chat.ID message.MessageID e)
      | Option.none => some e

/-- What one iteration of the update loop does with the update it received. -/
inductive LoopStep where
  | next
  | stop
  | spawn (update : Update)
  deriving DecidableEq, Repr

/-- One iteration of the update loop (main.go, lines 76-114): `continue` on
an update without message, `break` when the stop flag is raised, otherwise a
handling task is launched for the update. -/
def loopBody (stop : Bool) (update : Update) : LoopStep :=
  if update.Message = Option.none then LoopStep.next
  else if stop then LoopStep.stop
  else LoopStep.spawn update

/-- The flag `stopServer` (main.go, line 21); it is never assigned again. -/
def stopServer : Bool := false

/-- Handling one update: the loop iteration followed by the task it launched,
if any.  The result is `none` when the task fails on a nil pointer. -/
def handleUpdate (cfg : Config) (update : Update) (e : Effects) : Option Effects :=
  match loopBody stopServer update with
  | LoopStep.spawn u => handleTask cfg u e
  | LoopStep.next => some e
  | LoopStep.stop => some e

/-! ## Start-up -/

/-- A non-nil Go `error` value, identified by its message. -/
structure GoError where
  message : GoString
  deriving DecidableEq, Repr

/-- Modelled from the spec: `tgbotapi.WebhookInfo`, of which the last-delivery
error fields are read. -/
structure WebhookInfo where
  LastErrorDate : Int
  LastErrorMessage : GoString
  deriving DecidableEq, Repr

/-- Modelled from the spec: `tgbotapi.BotAPI`, the client handle, with the
two fields `main.go` touches. -/
structure BotAPI where
  Token : GoString
  Debug : Bool
  deriving DecidableEq, Repr

/-- Modelled from the spec: `tgbotapi.UpdateConfig`, the polling parameters. -/
structure UpdateConfig where
  Offset : Int
  Limit : Int
  Timeout : Int
  deriving DecidableEq, Repr

/-- The fields of `http.Server` set by `startServer`; durations are in
nanoseconds, as `time.Duration`. -/
structure Server where
  ReadTimeout : Int
  WriteTimeout : Int
  MaxHeaderBytes : Int
  deriving DecidableEq, Repr

/-- The command-line flags (main.go, lines 23-28). -/
structure Flags where
  token : GoString
  debug : Bool
  webhookBaseURL : GoString
  port : GoString
  charlength : Int
  illegalchars : GoString
  deriving DecidableEq, Repr

/-- The replies of the outside world to the requests made during start-up,
given as inputs.  A Go call returning `(value, error)` replies with both; the
error is `none` for nil. -/
structure Replies where
  newBotAPI : BotAPI × Option GoError
  setWebhook : Option GoError
  getWebhookInfo : WebhookInfo × Option GoError
  listen : Option GoError
  getUpdatesChan : Option GoError
  deriving DecidableEq, Repr

/-- A request made to the outside world during start-up. -/
inductive Request where
  | newBotAPI (token : GoString)
  | setWebhook (url : GoString)
  | getWebhookInfo
  | listenForWebhook (pattern : GoString)
  | listen (network address : GoString)
  | serve (server : Server)
  | getUpdatesChan (config : UpdateConfig)
  deriving DecidableEq, Repr

/-- The link handling of the client library, which is not part of the
repository, taken as a parameter.  `tgbotapi.NewWebhook(link)` keeps the
result of `url.Parse(link)` and drops its error, and `SetWebhook` sends that
URL written back as a string (`URL.String`).  A value of this type gives, for
a link, the string that is sent, or `none` when the link does not parse: the
URL kept is then nil. -/
abbrev LinkParser := GoString → Option GoString

/-- How a call of `startWithWebHook` ends: it returns its `error` result
(`none` for nil), or it fails on a nil pointer. -/
inductive WebHookResult where
  | returned (err : Option GoError)
  | panicked
  deriving DecidableEq, Repr

/-- The function `startWithWebHook` (main.go, lines 117-131): how it ends and
the log extended with the requests made.  Line 118 builds the link
`webhookURL + "/" + bot.Token` and hands it to `tgbotapi.NewWebhook`; when the
link does not parse, `SetWebhook` dereferences the nil URL before sending
anything, otherwise the request carries the URL written back as a string. -/
def startWithWebHook (parse : LinkParser) (bot : BotAPI) (webhookURL : GoString)
    (r : Replies) (log : List Request) : WebHookResult × List Request :=
  match parse (webhookURL ++ utf8 "/" ++ bot.Token) with
  | Option.none => (WebHookResult.panicked, log)
  | some url =>
    let log1 := log ++ [Request.setWebhook url]
    match r.setWebhook with
    | some err => (WebHookResult.returned (some err), log1)
    | Option.none =>
      let log2 := log1 ++ [Request.getWebhookInfo]
      match r.getWebhookInfo with
      | (_, some err) => (WebHookResult.returned (some err), log2)
      | (info, Option.none) =>
        if info.LastErrorDate ≠ 0 then
          (WebHookResult.returned
            (some { message := utf8 "Callback to telegram failed: "
                      ++ info.LastErrorMessage ++ utf8 " " }), log2)
        else
          (WebHookResult.returned Option.none, log2)

/-- The function `startWithPolling` (main.go, lines 133-137); `tgbotapi.NewUpdate(0)` is the
configuration with offset 0, no limit and no timeout. -/
def startWithPolling (_bot : BotAPI) (timeout : Int) : UpdateConfig :=
  let u : UpdateConfig := { Offset := 0, Limit := 0, Timeout := 0 }
  { u with Timeout := timeout }

/-- The function `startServer` (main.go, lines 139-155): the server (`none` for nil), the
error and the extended log.  The listener is bound by the `listen` request. -/
def startServer (port : GoString) (r : Replies) (log : List Request) :
    Option Server × Option GoError × List Request :=
  let url := utf8 "0.0.0.0:" ++ port
  let log1 := log ++ [Request.listen (utf8 "tcp") url]
  match r.listen with
  | some err => (none, some err, log1)
  | none =>
    let server : Server :=
      { ReadTimeout := 1000000000 * 30, WriteTimeout := 1000000000 * 60,
        MaxHeaderBytes := 1 <<< 20 }
    (some server, none, log1 ++ [Request.serve server])

/-- How start-up ends: `os.Exit`, `log.Fatal`, a failure on a nil pointer, or
the update loop is reached. -/
inductive Outcome where
  | exit (code : Int)
  | fatal (message : GoString)
  | panicked
  | running (server : Option Server)
  deriving DecidableEq, Repr

/-- The start-up part of `main` (main.go, lines 31-65), up to the update
loop: how it ends and the requests made, in order.  `log.Fatal` and
`log.Fatalf` end the process with the logged message. -/
def main (parse : LinkParser) (flags : Flags) (r : Replies) : Outcome × List Request :=
  if flags.token = [] then
    (Outcome.exit 1, [])
  else
    let log0 := [Request.newBotAPI flags.token]
    match r.newBotAPI with
    | (_, some err) =>
      (Outcome.fatal (utf8 "Initializing bot with the given token failed : " ++ err.message
        ++ [0x0A]), log0)
    | (bot0, none) =>
      let bot : BotAPI := { bot0 with Debug := flags.debug }
      if flags.webhookBaseURL ≠ [] then
        match startWithWebHook parse bot flags.webhookBaseURL r log0 with
        | (WebHookResult.panicked, log1) => (Outcome.panicked, log1)
        | (WebHookResult.returned (some err), log1) => (Outcome.fatal err.message, log1)
        | (WebHookResult.returned Option.none, log1) =>
          let log2 := log1 ++ [Request.listenForWebhook (utf8 "/" ++ bot.Token)]
          match startServer flags.port r log2 with
          | (_, some err, log3) => (Outcome.fatal err.message, log3)
          | (server, none, log3) => (Outcome.running server, log3)
      else
        let config := startWithPolling bot 1
        let log1 := log0 ++ [Request.getUpdatesChan config]
        match r.getUpdatesChan with
        | some err => (Outcome.fatal err.message, log1)
        | none => (Outcome.running none, log1)

/-! ## Vocabulary for the statements and concrete inputs -/

/-- The request is a delete-message call. -/
def Call.isDelete : Call → Bool
  | Call.deleteMessage _ _ => true
  | Call.kickChatMember _ _ => false

/-- The request is a remove-member call. -/
def Call.isKick : Call → Bool
  | Call.deleteMessage _ _ => false
  | Call.kickChatMember _ _ => true

/-- The default configuration: `charlength` 20 and no illegal substring. -/
def defaultConfig : Config := { charlength := 20, illegalChars := [] }

/-- A member with user id 7 whose username is 30 times the letter x. -/
def longNameUser : User :=
  { ID := 7, FirstName := utf8 "Ann", LastName := utf8 "Lee",
    UserName := List.replicate 30 0x78 }

/-- A member with user id 8 and short names. -/
def shortNameUser : User :=
  { ID := 8, FirstName := utf8 "Bob", LastName := utf8 "Ray", UserName := utf8 "bob" }

/-- An update in chat 1, message 2, reporting that user 8 left and, in the
same message, that user 7 joined. -/
def joinAndLeaveUpdate : Update :=
  { Message := some
      { MessageID := 2, Chat := { ID := 1 },
        NewChatMembers := some [longNameUser], LeftChatMember := some shortNameUser } }

/-- An update in chat 1, message 2, reporting user 7 both as a new member and
as the member who left. -/
def rejoinUpdate : Update :=
  { Message := some
      { MessageID := 2, Chat := { ID := 1 },
        NewChatMembers := some [longNameUser], LeftChatMember := some longNameUser } }

/-- An update in chat 1, message 3, reporting only that user 8 left. -/
def leaveUpdate : Update :=
  { Message := some
      { MessageID := 3, Chat := { ID := 1 },
        NewChatMembers := Option.none, LeftChatMember := some shortNameUser } }

/-- A configuration with threshold 20 and illegal substring `spam`. -/
def spamConfig : Config := { charlength := 20, illegalChars := utf8 "spam" }

/-- A member with user id 9 whose first name ends and last name begins inside
the word `spam`. -/
def splitSpamUser : User :=
  { ID := 9, FirstName := utf8 "spa", LastName := utf8 "m", UserName := utf8 "sam" }

/-- A member with user id 10 whose first name has 11 bytes and last name 10
bytes. -/
def longFullNameUser : User :=
  { ID := 10, FirstName := utf8 "Maximiliane", LastName := utf8 "Mustermann",
    UserName := utf8 "max" }

/-- The message 5 of chat 1 announcing that user 9 joined. -/
def splitSpamMessage : Message :=
  { MessageID := 5, Chat := { ID := 1 },
    NewChatMembers := some [splitSpamUser], LeftChatMember := Option.none }

/-- The message 6 of chat 1 announcing that user 10 joined. -/
def longFullNameMessage : Message :=
  { MessageID := 6, Chat := { ID := 1 },
    NewChatMembers := some [longFullNameUser], LeftChatMember := Option.none }

/-- An update without message. -/
def emptyUpdate : Update := { Message := Option.none }

/-- The message 4 of chat 1, an ordinary message reporting no membership
change. -/
def textMessage : Message :=
  { MessageID := 4, Chat := { ID := 1 },
    NewChatMembers := Option.none, LeftChatMember := Option.none }

/-- An update carrying `textMessage`. -/
def textUpdate : Update := { Message := some textMessage }

/-- The effects after one earlier delete-message call. -/
def oneCallBefore : Effects := { calls := [Call.deleteMessage 1 2], checks := 0 }

/-- The message 7 of chat 1 reporting that user 8 left, with a non-nil but
empty list of new members. -/
def emptyJoinLeaveMessage : Message :=
  { MessageID := 7, Chat := { ID := 1 },
    NewChatMembers := some [], LeftChatMember := some shortNameUser }

/-- The message 3 of chat 1 reporting only that user 8 left. -/
def leaveMessage : Message :=
  { MessageID := 3, Chat := { ID := 1 },
    NewChatMembers := Option.none, LeftChatMember := some shortNameUser }

/-- A link parser agreeing with `url.Parse` followed by `URL.String` on the
links of the examples: the link with the malformed escape `%zz` does not
parse, the upper-case scheme `HTTPS` is written back in lower case, and every
other link is taken to be written back unchanged. -/
def sampleParse : LinkParser := fun link =>
  if link = utf8 "https://bot.example/%zz/123:abc" then Option.none
  else if link = utf8 "HTTPS://bot.example/123:abc" then
    some (utf8 "https://bot.example/123:abc")
  else some link

/-- The client handle with token `123:abc`. -/
def sampleBot : BotAPI := { Token := utf8 "123:abc", Debug := true }

/-- Replies where every call succeeds and the webhook info reports no
delivery error. -/
def successReplies : Replies :=
  { newBotAPI := ({ Token := utf8 "123:abc", Debug := false }, Option.none),
    setWebhook := Option.none,
    getWebhookInfo := ({ LastErrorDate := 0, LastErrorMessage := [] }, Option.none),
    listen := Option.none,
    getUpdatesChan := Option.none }

/-- Flags selecting webhook mode on port 8080. -/
def webhookFlags : Flags :=
  { token := utf8 "123:abc", debug := true, webhookBaseURL := utf8 "https://bot.example",
    port := utf8 "8080", charlength := 20, illegalchars := [] }

/-- Replies where every call succeeds but the webhook info reports a delivery
error at time 1500000000. -/
def deliveryErrorReplies : Replies :=
  { newBotAPI := ({ Token := utf8 "123:abc", Debug := false }, Option.none),
    setWebhook := Option.none,
    getWebhookInfo :=
      ({ LastErrorDate := 1500000000, LastErrorMessage := utf8 "timeout" }, Option.none),
    listen := Option.none,
    getUpdatesChan := Option.none }

/-! ## The classifier: properties -/

theorem strings_Contains_iff (s sub : GoString) :
    strings.Contains s sub = true ↔ IsSubstring sub s := by
  induction s with
  | nil =>
    unfold strings.Contains IsSubstring
    constructor
    · intro h
      have : sub = [] := by simpa using h
      exact ⟨[], [], by simp [this]⟩
    · rintro ⟨pre, post, h⟩
      have h1 : pre ++ sub ++ post = [] := h.symm
      simp at h1
      simp [h1.2.1]
  | cons c cs ih =>
    unfold strings.Contains
    rw [Bool.or_eq_true, ih]
    constructor
    · rintro (h | ⟨pre, post, h⟩)
      · obtain ⟨t, ht⟩ := List.isPrefixOf_iff_prefix.mp h
        exact ⟨[], t, by simp [ht]⟩
      · exact ⟨c :: pre, post, by simp [h]⟩
    · rintro ⟨pre, post, h⟩
      cases pre with
      | nil =>
        left
        exact List.isPrefixOf_iff_prefix.mpr ⟨post, by simpa using h.symm⟩
      | cons p pre =>
        right
        refine ⟨pre, post, ?_⟩
        simp at h
        simpa using h.2

theorem checkIfSpammer_eq_true_iff (username name : GoString) (length : Int)
    (illegalChars : GoString) :
    checkIfSpammer username name length illegalChars = true ↔
      (illegalChars ≠ [] ∧ IsSubstring illegalChars name) ∨
        len username > length ∨ len name > length := by
  unfold checkIfSpammer
  rw [← strings_Contains_iff]
  by_cases h1 : illegalChars = []
  · by_cases h2 : len username > length <;> by_cases h3 : len name > length <;>
      simp [h1, h2, h3]
  · by_cases h0 : strings.Contains name illegalChars = true <;>
      by_cases h2 : len username > length <;> by_cases h3 : len name > length <;>
      simp [h1, h0, h2, h3]

theorem encodeRune_ascii_length (cs : List Char) (h : ∀ c ∈ cs, c.toNat ≤ 0x7F) :
    (cs.flatMap (fun c => encodeRune c.toNat)).length = cs.length := by
  induction cs with
  | nil => rfl
  | cons c cs ih =>
    have hc : c.toNat ≤ 0x7F := h c (List.mem_cons_self c cs)
    have hrest : ∀ d ∈ cs, d.toNat ≤ 0x7F := fun d hd => h d (List.mem_cons_of_mem c hd)
    have h1 : encodeRune c.toNat = [UInt8.ofNat c.toNat] := by
      unfold encodeRune
      rw [if_pos hc]
    rw [List.flatMap_cons, List.length_append, ih hrest, h1]
    simp [Nat.add_comm]

/-- C1: `checkIfSpammer username name maxLength illegal` is true exactly when
`illegal` is non-empty and occurs in `name` as a contiguous run of bytes, or
`len username > maxLength`, or `len name > maxLength`; and a non-empty `illegal`
occurring in `name` gives true for every `maxLength`. -/
theorem checkIfSpammer_spec (username name : GoString) (maxLength : Int) (illegal : GoString) :
    (checkIfSpammer username name maxLength illegal = true ↔
      (illegal ≠ [] ∧ IsSubstring illegal name) ∨
        len username > maxLength ∨ len name > maxLength) ∧
    (illegal ≠ [] → IsSubstring illegal name →
      ∀ L : Int, checkIfSpammer username name L illegal = true) := by
  refine ⟨checkIfSpammer_eq_true_iff username name maxLength illegal, ?_⟩
  intro hne hsub L
  exact (checkIfSpammer_eq_true_iff username name L illegal).mpr (Or.inl ⟨hne, hsub⟩)

/-- The substring rule of C1 at `("joe", "spambot", 20, "spam")` and at a
threshold far above every length. -/
theorem checkIfSpammer_spec_witness :
    utf8 "spam" ≠ [] ∧ IsSubstring (utf8 "spam") (utf8 "spambot") ∧
      checkIfSpammer (utf8 "joe") (utf8 "spambot") 20 (utf8 "spam") = true ∧
      checkIfSpammer (utf8 "joe") (utf8 "spambot") 1000000 (utf8 "spam") = true :=
  have hne : utf8 "spam" ≠ [] := by decide
  have hsub : IsSubstring (utf8 "spam") (utf8 "spambot") := ⟨[], utf8 "bot", by decide⟩
  ⟨hne, hsub,
    (checkIfSpammer_spec (utf8 "joe") (utf8 "spambot") 20 (utf8 "spam")).2 hne hsub 20,
    (checkIfSpammer_spec (utf8 "joe") (utf8 "spambot") 20 (utf8 "spam")).2 hne hsub 1000000⟩

theorem checkIfSpammer_case_sensitive :
    checkIfSpammer (utf8 "joe") (utf8 "SPAMbot") 20 (utf8 "spam") = false ∧
      checkIfSpammer (utf8 "joe") (utf8 "joe") 20 (utf8 "xyz") = false := by
  decide

/-- C2: with empty username and empty display name, `checkIfSpammer` is true
exactly when the threshold is negative, whatever the illegal substring; and
`checkIfSpammer "" "" 20 ""` is false. -/
theorem checkIfSpammer_empty (maxLength : Int) (illegal : GoString) :
    (checkIfSpammer [] [] maxLength illegal = true ↔ maxLength < 0) ∧
      checkIfSpammer [] [] 20 [] = false := by
  refine ⟨?_, by decide⟩
  rw [checkIfSpammer_eq_true_iff]
  constructor
  · rintro (⟨hne, pre, post, h⟩ | h | h)
    · have h1 : pre ++ illegal ++ post = [] := h.symm
      simp at h1
      exact absurd h1.2.1 hne
    · simpa [len] using h
    · simpa [len] using h
  · intro h
    right; left
    simpa [len] using h

/-- C7: with an empty illegal substring the result is true exactly when the
byte length of the username or of the name exceeds the threshold, although
every string contains the empty string; a name of 7
two-byte characters is spam at threshold 10 although it has at most 10
characters; for ASCII text the byte length is the character count, so the
rule then compares character counts; and `("joe", "joe smith", 5, "")` is
spam. -/
theorem checkIfSpammer_byte_length :
    (∀ (username name : GoString) (maxLength : Int),
      checkIfSpammer username name maxLength [] = true ↔
        (username.length : Int) > maxLength ∨ (name.length : Int) > maxLength) ∧
    (∀ name : GoString, strings.Contains name [] = true) ∧
    (∃ (name : String) (maxLength : Int),
      (name.length : Int) ≤ maxLength ∧ name.length = 7 ∧ maxLength = 10 ∧
        (utf8 name).length = 14 ∧ checkIfSpammer [] (utf8 name) maxLength [] = true) ∧
    (∀ (username name : String) (maxLength : Int),
      (∀ c ∈ username.toList, c.toNat ≤ 0x7F) → (∀ c ∈ name.toList, c.toNat ≤ 0x7F) →
      (checkIfSpammer (utf8 username) (utf8 name) maxLength [] = true ↔
        (username.length : Int) > maxLength ∨ (name.length : Int) > maxLength)) ∧
    checkIfSpammer (utf8 "joe") (utf8 "joe smith") 5 (utf8 "") = true := by
  have hbytes : ∀ (username name : GoString) (maxLength : Int),
      checkIfSpammer username name maxLength [] = true ↔
        (username.length : Int) > maxLength ∨ (name.length : Int) > maxLength := by
    intro username name maxLength
    rw [checkIfSpammer_eq_true_iff]
    simp [len]
  have hempty : ∀ name : GoString, strings.Contains name [] = true := by
    intro name
    exact (strings_Contains_iff name []).mpr ⟨[], name, rfl⟩
  refine ⟨hbytes, hempty,
    ⟨"ééééééé", 10, by decide, by decide, rfl, by decide, by decide⟩, ?_, by decide⟩
  intro username name maxLength hu hn
  rw [hbytes]
  have e1 : (utf8 username).length = username.length := encodeRune_ascii_length _ hu
  have e2 : (utf8 name).length = name.length := encodeRune_ascii_length _ hn
  rw [e1, e2]

/-- The ASCII part of C7 at `("joe", "joe smith", 5)`: 9 characters exceed 5. -/
theorem checkIfSpammer_byte_length_witness :
    (checkIfSpammer (utf8 "joe") (utf8 "joe smith") 5 [] = true ↔
      (("joe".length : Nat) : Int) > 5 ∨ (("joe smith".length : Nat) : Int) > 5) :=
  checkIfSpammer_byte_length.2.2.2.1 "joe" "joe smith" 5 (by decide) (by decide)

/-- C9: `checkIfSpammer` is monotone in the threshold: for `L ≤ L'`, not spam
at `L` implies not spam at `L'`, and spam at `L'` implies spam at `L`. -/
theorem checkIfSpammer_mono (username name illegal : GoString) (L L' : Int) (h : L ≤ L') :
    (checkIfSpammer username name L illegal = false →
      checkIfSpammer username name L' illegal = false) ∧
    (checkIfSpammer username name L' illegal = true →
      checkIfSpammer username name L illegal = true) := by
  have key : checkIfSpammer username name L' illegal = true →
      checkIfSpammer username name L illegal = true := by
    rw [checkIfSpammer_eq_true_iff, checkIfSpammer_eq_true_iff]
    rintro (h1 | h2 | h3)
    · exact Or.inl h1
    · exact Or.inr (Or.inl (lt_of_le_of_lt h h2))
    · exact Or.inr (Or.inr (lt_of_le_of_lt h h3))
  refine ⟨?_, key⟩
  intro hf
  by_contra hc
  rw [Bool.not_eq_false] at hc
  rw [key hc] at hf
  exact Bool.noConfusion hf

/-- C9 at thresholds 5 and 20: `("joe", "joe", "")` is not spam at 5, hence not
at 20; `("joe", "joe smith", "")` is spam at 8, hence at 5. -/
theorem checkIfSpammer_mono_witness :
    (5 : Int) ≤ 20 ∧ checkIfSpammer (utf8 "joe") (utf8 "joe") 20 [] = false ∧
      checkIfSpammer (utf8 "joe") (utf8 "joe smith") 5 [] = true :=
  ⟨by decide,
    (checkIfSpammer_mono (utf8 "joe") (utf8 "joe") [] 5 20 (by decide)).1 (by decide),
    (checkIfSpammer_mono (utf8 "joe") (utf8 "joe smith") [] 5 8 (by decide)).2 (by decide)⟩

/-! ## Update dispatch: properties -/

theorem newMembersLoop_eq (cfg : Config) (chatID : Int) (members : List User) (e : Effects) :
    newMembersLoop cfg chatID members e =
      { calls := e.calls ++
          (members.filter (fun u => checkIfSpammer u.UserName (u.FirstName ++ u.LastName)
            cfg.charlength cfg.illegalChars)).map (fun u => Call.kickChatMember chatID u.ID),
        checks := e.checks + members.length } := by
  induction members generalizing e with
  | nil => simp [newMembersLoop]
  | cons user rest ih =>
    unfold newMembersLoop
    by_cases h : checkIfSpammer user.UserName (user.FirstName ++ user.LastName)
        cfg.charlength cfg.illegalChars = true
    · simp only [h, if_true, ih, KickChatMember, List.filter_cons_of_pos, List.map_cons,
        List.length_cons, List.append_assoc, List.singleton_append]
      congr 1
      omega
    · simp only [h, ih, List.length_cons, Bool.false_eq_true, if_false]
      rw [List.filter_cons_of_neg (by simpa using h)]
      congr 1
      omega

theorem handleUpdate_some (cfg : Config) (update : Update) (message : Message) (e : Effects)
    (hm : update.Message = some message) :
    handleUpdate cfg update e = handleTask cfg update e := by
  simp [handleUpdate, loopBody, stopServer, hm]

theorem handleUpdate_newMembers_eq (cfg : Config) (update : Update) (message : Message)
    (members : List User) (e : Effects) (hm : update.Message = some message)
    (hn : message.NewChatMembers = some members) :
    handleUpdate cfg update e = some
      { calls := e.calls ++ Call.deleteMessage message.Chat.ID message.MessageID ::
          (members.filter (fun u => checkIfSpammer u.UserName (u.FirstName ++ u.LastName)
            cfg.charlength cfg.illegalChars)).map
              (fun u => Call.kickChatMember message.Chat.ID u.ID),
        checks := e.checks + members.length } := by
  rw [handleUpdate_some cfg update message e hm]
  simp [handleTask, hm, hn, newMembersLoop_eq, DeleteMessage]

theorem handleUpdate_leftOnly_eq (cfg : Config) (update : Update) (message : Message)
    (user : User) (e : Effects) (hm : update.Message = some message)
    (hn : message.NewChatMembers = Option.none) (hl : message.LeftChatMember = some user) :
    handleUpdate cfg update e = some
      { calls := e.calls ++ [Call.deleteMessage message.Chat.ID message.MessageID],
        checks := e.checks } := by
  rw [handleUpdate_some cfg update message e hm]
  simp [handleTask, hm, hn, hl, DeleteMessage]

theorem handleUpdate_neither_eq (cfg : Config) (update : Update) (message : Message)
    (e : Effects) (hm : update.Message = some message)
    (hn : message.NewChatMembers = Option.none) (hl : message.LeftChatMember = Option.none) :
    handleUpdate cfg update e = some e := by
  rw [handleUpdate_some cfg update message e hm]
  simp [handleTask, hm, hn, hl]

theorem handleUpdate_noMessage_eq (cfg : Config) (update : Update) (e : Effects)
    (hm : update.Message = Option.none) :
    handleUpdate cfg update e = some e := by
  simp [handleUpdate, loopBody, hm]

/-- C3: for an update whose message is non-nil with non-nil `NewChatMembers`
(whatever `LeftChatMember` is), the task sends exactly one delete-message call
for the update's chat id and message id, followed, in list order, by one
remove-member call for each new member classified as spam by `checkIfSpammer`,
and nothing else; the classifier runs once per member.  With a single new
member whose username is 30 letters x and `charlength` 20, the calls are one
delete-message call and one remove-member call for that user. -/
theorem handleUpdate_newMembers (cfg : Config) (update : Update) (message : Message)
    (members : List User) (hm : update.Message = some message)
    (hn : message.NewChatMembers = some members) :
    handleUpdate cfg update Effects.none = some
      { calls := Call.deleteMessage message.Chat.ID message.MessageID ::
          (members.filter (fun u => checkIfSpammer u.UserName (u.FirstName ++ u.LastName)
            cfg.charlength cfg.illegalChars)).map
              (fun u => Call.kickChatMember message.Chat.ID u.ID),
        checks := members.length } ∧
    (∀ user : User, members = [user] → user.UserName = List.replicate 30 0x78 →
      cfg.charlength = 20 →
      handleUpdate cfg update Effects.none = some
        { calls := [Call.deleteMessage message.Chat.ID message.MessageID,
            Call.kickChatMember message.Chat.ID user.ID],
          checks := 1 }) := by
  have h : handleUpdate cfg update Effects.none = some
      { calls := Call.deleteMessage message.Chat.ID message.MessageID ::
          (members.filter (fun u => checkIfSpammer u.UserName (u.FirstName ++ u.LastName)
            cfg.charlength cfg.illegalChars)).map
              (fun u => Call.kickChatMember message.Chat.ID u.ID),
        checks := members.length } := by
    have h0 := handleUpdate_newMembers_eq cfg update message members Effects.none hm hn
    simpa [Effects.none] using h0
  refine ⟨h, ?_⟩
  intro user hu hname hlen
  have hspam : checkIfSpammer user.UserName (user.FirstName ++ user.LastName)
      cfg.charlength cfg.illegalChars = true := by
    rw [checkIfSpammer_eq_true_iff, hname, hlen]
    right; left
    decide
  rw [h, hu]
  simp [hspam]

/-- C3 at the update reporting user 7 (username of 30 letters x) as joined,
with the default threshold 20: one delete-message call, then one remove-member
call for user 7. -/
theorem handleUpdate_newMembers_witness :
    handleUpdate defaultConfig joinAndLeaveUpdate Effects.none = some
      { calls := [Call.deleteMessage 1 2, Call.kickChatMember 1 7], checks := 1 } :=
  (handleUpdate_newMembers defaultConfig joinAndLeaveUpdate
    { MessageID := 2, Chat := { ID := 1 },
      NewChatMembers := some [longNameUser], LeftChatMember := some shortNameUser }
    [longNameUser] rfl rfl).2 longNameUser rfl rfl rfl

/-- C4 as stated fails: the update `joinAndLeaveUpdate` has a non-nil message
with `LeftChatMember` set, yet handling it runs the classifier once and sends
a remove-member call after the delete-message call. -/
theorem handleUpdate_leftChatMember_counterexample :
    (∃ message user, joinAndLeaveUpdate.Message = some message ∧
      message.LeftChatMember = some user) ∧
    handleUpdate defaultConfig joinAndLeaveUpdate Effects.none = some
      { calls := [Call.deleteMessage 1 2, Call.kickChatMember 1 7], checks := 1 } ∧
    handleUpdate defaultConfig joinAndLeaveUpdate Effects.none ≠ some
      { calls := [Call.deleteMessage 1 2], checks := 0 } := by
  refine ⟨⟨_, _, rfl, rfl⟩, by decide, by decide⟩

/-- C4, amended: for an update whose message is non-nil and has
`LeftChatMember` set, the task sends exactly one delete-message call, for the
update's chat id and message id, runs the classifier zero times and sends no
remove-member call, exactly when `NewChatMembers` is nil or an empty list. -/
theorem handleUpdate_leftOnly (cfg : Config) (update : Update) (message : Message)
    (user : User) (hm : update.Message = some message)
    (hl : message.LeftChatMember = some user) :
    handleUpdate cfg update Effects.none = some
        { calls := [Call.deleteMessage message.Chat.ID message.MessageID], checks := 0 } ↔
      (message.NewChatMembers = Option.none ∨ message.NewChatMembers = some []) := by
  cases hn : message.NewChatMembers with
  | none =>
    have h := handleUpdate_leftOnly_eq cfg update message user Effects.none hm hn hl
    constructor
    · intro _; exact Or.inl rfl
    · intro _; simpa [Effects.none] using h
  | some members =>
    have h := handleUpdate_newMembers_eq cfg update message members Effects.none hm hn
    rw [h]
    cases members with
    | nil => simp [Effects.none]
    | cons u rest => simp [Effects.none]

/-- The amended C4 at the update reporting only that user 8 left chat 1, and
at the update reporting it together with an empty list of new members. -/
theorem handleUpdate_leftOnly_witness :
    handleUpdate defaultConfig leaveUpdate Effects.none = some
        { calls := [Call.deleteMessage 1 3], checks := 0 } ∧
      handleUpdate defaultConfig { Message := some emptyJoinLeaveMessage } Effects.none = some
        { calls := [Call.deleteMessage 1 7], checks := 0 } :=
  ⟨(handleUpdate_leftOnly defaultConfig leaveUpdate leaveMessage shortNameUser rfl rfl).mpr
      (Or.inl rfl),
    (handleUpdate_leftOnly defaultConfig { Message := some emptyJoinLeaveMessage }
      emptyJoinLeaveMessage shortNameUser rfl rfl).mpr (Or.inr rfl)⟩

/-- C5: an update without message makes the loop continue without launching
a task, so nothing is sent and the missing message is not dereferenced (the
task body itself would fail on such an update); an update whose message has
neither `NewChatMembers` nor `LeftChatMember` is handled without any transport
call.  In both cases the effects are unchanged and handling succeeds. -/
theorem handleUpdate_noop (cfg : Config) (update : Update) (e : Effects) :
    (update.Message = Option.none →
      loopBody stopServer update = LoopStep.next ∧ handleUpdate cfg update e = some e ∧
        handleTask cfg update e = Option.none) ∧
    (∀ message : Message, update.Message = some message →
      message.NewChatMembers = Option.none → message.LeftChatMember = Option.none →
      handleUpdate cfg update e = some e) := by
  constructor
  · intro hm
    exact ⟨by simp [loopBody, hm], handleUpdate_noMessage_eq cfg update e hm,
      by simp [handleTask, hm]⟩
  · intro message hm hn hl
    exact handleUpdate_neither_eq cfg update message e hm hn hl

/-- C5 at the update without message and at an ordinary text message, after
one earlier delete-message call. -/
theorem handleUpdate_noop_witness :
    handleUpdate defaultConfig emptyUpdate oneCallBefore = some oneCallBefore ∧
      handleUpdate defaultConfig textUpdate oneCallBefore = some oneCallBefore :=
  ⟨((handleUpdate_noop defaultConfig emptyUpdate oneCallBefore).1 rfl).2.1,
    (handleUpdate_noop defaultConfig textUpdate oneCallBefore).2 textMessage rfl rfl rfl⟩

/-- C8: the display name given to the classifier is `FirstName` directly
followed by `LastName`: the remove-member calls are those of the listed
members, in order, for which the illegal substring is non-empty and occurs in
`FirstName ++ LastName`, or `len UserName > charlength`, or
`len FirstName + len LastName > charlength`.  A single member whose names are
each within `charlength` but together exceed it is removed, and so is a member
named `spa` + `m` when the illegal substring is `spam`. -/
theorem newMember_removed_iff (cfg : Config) (update : Update) (message : Message)
    (members : List User) (hm : update.Message = some message)
    (hn : message.NewChatMembers = some members) :
    (∃ removed : User → Bool,
      (∀ u : User, removed u = true ↔
        (cfg.illegalChars ≠ [] ∧ IsSubstring cfg.illegalChars (u.FirstName ++ u.LastName)) ∨
          len u.UserName > cfg.charlength ∨
          len u.FirstName + len u.LastName > cfg.charlength) ∧
      (handleUpdate cfg update Effects.none).map Effects.calls = some
        (Call.deleteMessage message.Chat.ID message.MessageID ::
          (members.filter removed).map (fun u => Call.kickChatMember message.Chat.ID u.ID))) ∧
    (∀ user : User, members = [user] →
      len user.FirstName ≤ cfg.charlength → len user.LastName ≤ cfg.charlength →
      len user.FirstName + len user.LastName > cfg.charlength →
      (handleUpdate cfg update Effects.none).map Effects.calls = some
        [Call.deleteMessage message.Chat.ID message.MessageID,
          Call.kickChatMember message.Chat.ID user.ID]) ∧
    (∀ user : User, members = [user] →
      user.FirstName = utf8 "spa" → user.LastName = utf8 "m" →
      cfg.illegalChars = utf8 "spam" →
      (handleUpdate cfg update Effects.none).map Effects.calls = some
        [Call.deleteMessage message.Chat.ID message.MessageID,
          Call.kickChatMember message.Chat.ID user.ID]) := by
  have hiff : ∀ u : User,
      checkIfSpammer u.UserName (u.FirstName ++ u.LastName) cfg.charlength cfg.illegalChars
          = true ↔
        (cfg.illegalChars ≠ [] ∧ IsSubstring cfg.illegalChars (u.FirstName ++ u.LastName)) ∨
          len u.UserName > cfg.charlength ∨
          len u.FirstName + len u.LastName > cfg.charlength := by
    intro u
    rw [checkIfSpammer_eq_true_iff]
    have hl : len (u.FirstName ++ u.LastName) = len u.FirstName + len u.LastName := by
      simp [len]
    rw [hl]
  have h := handleUpdate_newMembers_eq cfg update message members Effects.none hm hn
  have hcalls : (handleUpdate cfg update Effects.none).map Effects.calls = some
      (Call.deleteMessage message.Chat.ID message.MessageID ::
        (members.filter (fun u => checkIfSpammer u.UserName (u.FirstName ++ u.LastName)
          cfg.charlength cfg.illegalChars)).map
            (fun u => Call.kickChatMember message.Chat.ID u.ID)) := by
    rw [h]
    simp [Effects.none]
  refine ⟨⟨_, hiff, hcalls⟩, ?_, ?_⟩
  · intro user hu _ _ hsum
    have hspam := (hiff user).mpr (Or.inr (Or.inr hsum))
    rw [hcalls, hu]
    simp [hspam]
  · intro user hu hfirst hlast hill
    have hspam := (hiff user).mpr (Or.inl ⟨by rw [hill]; decide,
      ⟨[], [], by rw [hill, hfirst, hlast]; decide⟩⟩)
    rw [hcalls, hu]
    simp [hspam]

/-- C8 at a member named `Maximiliane` + `Mustermann` (11 and 10 bytes,
threshold 20) and at a member named `spa` + `m` with illegal substring
`spam`: both are removed. -/
theorem newMember_removed_iff_witness :
    (handleUpdate defaultConfig { Message := some longFullNameMessage } Effects.none).map
        Effects.calls = some [Call.deleteMessage 1 6, Call.kickChatMember 1 10] ∧
    (handleUpdate spamConfig { Message := some splitSpamMessage } Effects.none).map
        Effects.calls = some [Call.deleteMessage 1 5, Call.kickChatMember 1 9] :=
  ⟨(newMember_removed_iff defaultConfig { Message := some longFullNameMessage }
      longFullNameMessage [longFullNameUser] rfl rfl).2.1 longFullNameUser rfl
      (by decide) (by decide) (by decide),
    (newMember_removed_iff spamConfig { Message := some splitSpamMessage }
      splitSpamMessage [splitSpamUser] rfl rfl).2.2 splitSpamUser rfl rfl rfl rfl⟩

theorem filter_isDelete_kicks (chatID : Int) (users : List User) :
    (users.map (fun u => Call.kickChatMember chatID u.ID)).filter Call.isDelete = [] := by
  induction users with
  | nil => rfl
  | cons u rest ih => simp [Call.isDelete]

theorem filter_isKick_kicks (chatID : Int) (users : List User) :
    (users.map (fun u => Call.kickChatMember chatID u.ID)).filter Call.isKick =
      users.map (fun u => Call.kickChatMember chatID u.ID) := by
  induction users with
  | nil => rfl
  | cons u rest ih => simp [Call.isKick]

/-- C10 as stated fails: handling `rejoinUpdate`, whose `LeftChatMember` is
user 7, sends a remove-member call for user 7, because the same message lists
that user as a new member whose username is too long. -/
theorem handleUpdate_kicks_leftChatMember_counterexample :
    (∃ message user, rejoinUpdate.Message = some message ∧
      message.LeftChatMember = some user ∧ user.ID = 7 ∧ message.Chat.ID = 1) ∧
    handleUpdate defaultConfig rejoinUpdate Effects.none = some
      { calls := [Call.deleteMessage 1 2, Call.kickChatMember 1 7], checks := 1 } := by
  refine ⟨⟨_, _, rfl, rfl, rfl, rfl⟩, by decide⟩

/-- C10, amended: handling any update succeeds, and the calls sent satisfy:
without message nothing is sent; otherwise at most one delete-message call is
sent and every such call targets the update's chat id and message id; every
remove-member call targets the update's chat id and the user id of a member
listed in `NewChatMembers` that the classifier marks as spam; there are at
most as many remove-member calls as listed new members; none is sent when
`NewChatMembers` is nil; and one is sent for the user id of `LeftChatMember`
only when a listed new member has that id. -/
theorem handleUpdate_calls_bounds (cfg : Config) (update : Update) :
    ∃ e : Effects, handleUpdate cfg update Effects.none = some e ∧
      (update.Message = Option.none → e.calls = []) ∧
      ∀ message : Message, update.Message = some message →
        (e.calls.filter Call.isDelete).length ≤ 1 ∧
        (∀ chatID messageID : Int, Call.deleteMessage chatID messageID ∈ e.calls →
          chatID = message.Chat.ID ∧ messageID = message.MessageID) ∧
        (∀ chatID userID : Int, Call.kickChatMember chatID userID ∈ e.calls →
          chatID = message.Chat.ID ∧
            ∃ members : List User, message.NewChatMembers = some members ∧
              ∃ u ∈ members, u.ID = userID ∧
                checkIfSpammer u.UserName (u.FirstName ++ u.LastName)
                  cfg.charlength cfg.illegalChars = true) ∧
        (e.calls.filter Call.isKick).length ≤ (message.NewChatMembers.getD []).length ∧
        (message.NewChatMembers = Option.none →
          ∀ chatID userID : Int, Call.kickChatMember chatID userID ∉ e.calls) ∧
        (∀ left : User, message.LeftChatMember = some left →
          ∀ chatID : Int, Call.kickChatMember chatID left.ID ∈ e.calls →
            ∃ members : List User, message.NewChatMembers = some members ∧
              ∃ u ∈ members, u.ID = left.ID) := by
  cases hm : update.Message with
  | none =>
    refine ⟨Effects.none, handleUpdate_noMessage_eq cfg update Effects.none hm, ?_, ?_⟩
    · intro _; rfl
    · intro message h; exact Option.noConfusion h
  | some m =>
    cases hn : m.NewChatMembers with
    | some members =>
      refine ⟨_, handleUpdate_newMembers_eq cfg update m members Effects.none hm hn, ?_, ?_⟩
      · intro h; exact Option.noConfusion h
      · intro message hmsg
        have hmm : m = message := Option.some.inj hmsg
        subst hmm
        have hkick : ∀ chatID userID : Int,
            Call.kickChatMember chatID userID ∈
              Effects.none.calls ++ Call.deleteMessage m.Chat.ID m.MessageID ::
                (members.filter (fun u => checkIfSpammer u.UserName
                  (u.FirstName ++ u.LastName) cfg.charlength cfg.illegalChars)).map
                    (fun u => Call.kickChatMember m.Chat.ID u.ID) →
            chatID = m.Chat.ID ∧
              ∃ u ∈ members, u.ID = userID ∧
                checkIfSpammer u.UserName (u.FirstName ++ u.LastName)
                  cfg.charlength cfg.illegalChars = true := by
          intro chatID userID hmem
          simp only [Effects.none, List.nil_append, List.mem_cons, List.mem_map,
            List.mem_filter] at hmem
          rcases hmem with h | ⟨u, ⟨hu, hs⟩, heq⟩
          · exact Call.noConfusion h
          · injection heq with h1 h2
            exact ⟨h1.symm, u, hu, h2, hs⟩
        refine ⟨?_, ?_, ?_, ?_, ?_, ?_⟩
        · simp [Effects.none, List.filter_cons, Call.isDelete, filter_isDelete_kicks]
        · intro chatID messageID hmem
          simp only [Effects.none, List.nil_append, List.mem_cons, List.mem_map] at hmem
          rcases hmem with h | ⟨u, _, heq⟩
          · injection h with h1 h2
            exact ⟨h1, h2⟩
          · exact Call.noConfusion heq
        · intro chatID userID hmem
          obtain ⟨h1, u, hu, h2, hs⟩ := hkick chatID userID hmem
          exact ⟨h1, members, hn, u, hu, h2, hs⟩
        · rw [hn]
          simp only [Effects.none, List.nil_append, List.filter_cons, Call.isKick,
            Bool.false_eq_true, if_false, filter_isKick_kicks, List.length_map,
            Option.getD_some]
          exact List.length_filter_le _ _
        · intro h
          rw [hn] at h
          exact Option.noConfusion h
        · intro left _ chatID hmem
          obtain ⟨_, u, hu, h2, _⟩ := hkick chatID left.ID hmem
          exact ⟨members, hn, u, hu, h2⟩
    | none =>
      have hcalls : ∃ e : Effects, handleUpdate cfg update Effects.none = some e ∧
          (e.calls = [] ∨ e.calls = [Call.deleteMessage m.Chat.ID m.MessageID]) := by
        cases hl : m.LeftChatMember with
        | none =>
          exact ⟨_, handleUpdate_neither_eq cfg update m Effects.none hm hn hl, Or.inl rfl⟩
        | some user =>
          exact ⟨_, handleUpdate_leftOnly_eq cfg update m user Effects.none hm hn hl,
            Or.inr rfl⟩
      obtain ⟨e, he, hc⟩ := hcalls
      refine ⟨e, he, ?_, ?_⟩
      · intro h; exact Option.noConfusion h
      · intro message hmsg
        have hmm : m = message := Option.some.inj hmsg
        subst hmm
        rcases hc with hc | hc <;> rw [hc] <;> simp [Call.isDelete, Call.isKick, hn]

/-- The amended C10 at `rejoinUpdate`: handling succeeds and sends at most one
remove-member call, the update listing one new member. -/
theorem handleUpdate_calls_bounds_witness :
    ∃ e : Effects, handleUpdate defaultConfig rejoinUpdate Effects.none = some e ∧
      (e.calls.filter Call.isDelete).length ≤ 1 ∧ (e.calls.filter Call.isKick).length ≤ 1 :=
  match handleUpdate_calls_bounds defaultConfig rejoinUpdate with
  | ⟨e, he, _, h⟩ =>
    ⟨e, he, (h { MessageID := 2, Chat := { ID := 1 },
                 NewChatMembers := some [longNameUser],
                 LeftChatMember := some longNameUser } rfl).1,
      (h { MessageID := 2, Chat := { ID := 1 },
           NewChatMembers := some [longNameUser],
           LeftChatMember := some longNameUser } rfl).2.2.2.1⟩

/-! ## Start-up: properties -/

theorem startWithWebHook_parsed (parse : LinkParser) (bot : BotAPI) (webhookURL : GoString)
    (r : Replies) (log : List Request) (url : GoString)
    (hp : parse (webhookURL ++ utf8 "/" ++ bot.Token) = some url) :
    ((∃ err : GoError, (startWithWebHook parse bot webhookURL r log).1 =
        WebHookResult.returned (some err)) ↔
      r.setWebhook ≠ Option.none ∨ r.getWebhookInfo.2 ≠ Option.none ∨
        r.getWebhookInfo.1.LastErrorDate ≠ 0) ∧
    ((startWithWebHook parse bot webhookURL r log).1 = WebHookResult.returned Option.none ↔
      r.setWebhook = Option.none ∧ r.getWebhookInfo.2 = Option.none ∧
        r.getWebhookInfo.1.LastErrorDate = 0) ∧
    ((startWithWebHook parse bot webhookURL r log).2 = log ++ [Request.setWebhook url] ∨
      (startWithWebHook parse bot webhookURL r log).2 =
        log ++ [Request.setWebhook url, Request.getWebhookInfo]) := by
  unfold startWithWebHook
  rw [hp]
  cases hs : r.setWebhook with
  | some err => simp
  | none =>
    rcases hi : r.getWebhookInfo with ⟨info, ierr⟩
    cases ierr with
    | some err => simp
    | none =>
      by_cases hd : info.LastErrorDate = 0
      · simp [hd]
      · simp [hd]

theorem startWithWebHook_log (parse : LinkParser) (bot : BotAPI) (webhookURL : GoString)
    (r : Replies) (log : List Request) :
    ∀ q ∈ (startWithWebHook parse bot webhookURL r log).2,
      q ∈ log ∨ (∃ url : GoString, q = Request.setWebhook url) ∨
        q = Request.getWebhookInfo := by
  intro q hq
  cases hp : parse (webhookURL ++ utf8 "/" ++ bot.Token) with
  | none =>
    have h0 : (startWithWebHook parse bot webhookURL r log).2 = log := by
      unfold startWithWebHook
      rw [hp]
    rw [h0] at hq
    exact Or.inl hq
  | some url =>
    rcases (startWithWebHook_parsed parse bot webhookURL r log url hp).2.2 with h | h
    · rw [h] at hq
      simp only [List.mem_append, List.mem_singleton] at hq
      rcases hq with h1 | h1
      · exact Or.inl h1
      · exact Or.inr (Or.inl ⟨url, h1⟩)
    · rw [h] at hq
      simp only [List.mem_append, List.mem_cons, List.mem_singleton, List.not_mem_nil,
        or_false] at hq
      rcases hq with h1 | h1 | h1
      · exact Or.inl h1
      · exact Or.inr (Or.inl ⟨url, h1⟩)
      · exact Or.inr (Or.inr h1)

theorem startWithWebHook_unparsable (parse : LinkParser) (bot : BotAPI)
    (webhookURL : GoString) (r : Replies) (log : List Request)
    (hp : parse (webhookURL ++ utf8 "/" ++ bot.Token) = Option.none) :
    startWithWebHook parse bot webhookURL r log = (WebHookResult.panicked, log) := by
  unfold startWithWebHook
  rw [hp]

theorem main_webhook_error (parse : LinkParser) (flags : Flags) (r : Replies) (err : GoError)
    (htoken : flags.token ≠ []) (hbot : r.newBotAPI.2 = Option.none)
    (hurl : flags.webhookBaseURL ≠ [])
    (herr : (startWithWebHook parse { r.newBotAPI.1 with Debug := flags.debug }
      flags.webhookBaseURL r [Request.newBotAPI flags.token]).1 =
        WebHookResult.returned (some err)) :
    main parse flags r = (Outcome.fatal err.message,
      (startWithWebHook parse { r.newBotAPI.1 with Debug := flags.debug }
        flags.webhookBaseURL r [Request.newBotAPI flags.token]).2) := by
  rcases hnb : r.newBotAPI with ⟨bot0, e0⟩
  rw [hnb] at hbot herr
  simp only at hbot herr
  subst hbot
  rcases hs : startWithWebHook parse { bot0 with Debug := flags.debug }
    flags.webhookBaseURL r [Request.newBotAPI flags.token] with ⟨e, lg⟩
  rw [hs] at herr
  simp only at herr
  subst herr
  simp [main, htoken, hurl, hnb, hs]

theorem main_webhook_ok (parse : LinkParser) (flags : Flags) (r : Replies)
    (htoken : flags.token ≠ []) (hbot : r.newBotAPI.2 = Option.none)
    (hurl : flags.webhookBaseURL ≠ [])
    (hok : (startWithWebHook parse { r.newBotAPI.1 with Debug := flags.debug }
      flags.webhookBaseURL r [Request.newBotAPI flags.token]).1 =
        WebHookResult.returned Option.none) :
    Request.listen (utf8 "tcp") (utf8 "0.0.0.0:" ++ flags.port) ∈ (main parse flags r).2 := by
  rcases hnb : r.newBotAPI with ⟨bot0, e0⟩
  rw [hnb] at hbot hok
  simp only at hbot hok
  subst hbot
  rcases hs : startWithWebHook parse { bot0 with Debug := flags.debug }
    flags.webhookBaseURL r [Request.newBotAPI flags.token] with ⟨e, lg⟩
  rw [hs] at hok
  simp only at hok
  subst hok
  cases hl : r.listen with
  | none => simp [main, htoken, hurl, hnb, hs, startServer, hl]
  | some lerr => simp [main, htoken, hurl, hnb, hs, startServer, hl]

theorem main_webhook_unparsable (parse : LinkParser) (flags : Flags) (r : Replies)
    (htoken : flags.token ≠ []) (hbot : r.newBotAPI.2 = Option.none)
    (hurl : flags.webhookBaseURL ≠ [])
    (hp : parse (flags.webhookBaseURL ++ utf8 "/" ++ r.newBotAPI.1.Token) = Option.none) :
    main parse flags r = (Outcome.panicked, [Request.newBotAPI flags.token]) := by
  rcases hnb : r.newBotAPI with ⟨bot0, e0⟩
  rw [hnb] at hbot hp
  simp only at hbot hp
  subst hbot
  have hs := startWithWebHook_unparsable parse { bot0 with Debug := flags.debug }
    flags.webhookBaseURL r [Request.newBotAPI flags.token] hp
  simp [main, htoken, hurl, hnb, hs]

/-- C6 as stated fails.  With the link `HTTPS://bot.example/123:abc` the
set-webhook request carries the URL written back by the parser, with scheme
`https`, not `webhookURL + "/" + token`.  With a link that does not parse,
`startWithWebHook` fails on the nil URL before any request: it returns neither
an error, although the webhook info replied would report a delivery error,
nor nil, although every reply would be a success. -/
theorem startWithWebHook_counterexample :
    (startWithWebHook sampleParse sampleBot (utf8 "HTTPS://bot.example") successReplies [] =
        (WebHookResult.returned Option.none,
          [Request.setWebhook (utf8 "https://bot.example/123:abc"),
            Request.getWebhookInfo]) ∧
      utf8 "https://bot.example/123:abc" ≠
        utf8 "HTTPS://bot.example" ++ utf8 "/" ++ sampleBot.Token) ∧
    (deliveryErrorReplies.getWebhookInfo.1.LastErrorDate ≠ 0 ∧
      startWithWebHook sampleParse sampleBot (utf8 "https://bot.example/%zz")
        deliveryErrorReplies [] = (WebHookResult.panicked, [])) ∧
    startWithWebHook sampleParse sampleBot (utf8 "https://bot.example/%zz")
      successReplies [] = (WebHookResult.panicked, []) := by
  refine ⟨⟨by decide, by decide⟩, ⟨by decide, by decide⟩, by decide⟩

/-- C6, amended: with the transport's replies as inputs and a link
`webhookURL + "/" + bot.Token` that parses, `startWithWebHook` returns an
error exactly when the set-webhook call fails, or the get-webhook-info call
fails, or the returned info has `LastErrorDate ≠ 0`, and returns nil
otherwise; the requests it makes are the set-webhook call for the parsed link
written back as a string, which is `webhookURL + "/" + bot.Token` itself when
the parser leaves the link unchanged, followed at most by the
get-webhook-info call.  Whether the link parses or not, when the call made
by `main` in webhook mode returns an error, `main` ends fatally with that
error and has made no listener request: `startServer` is not reached. -/
theorem startWithWebHook_spec (parse : LinkParser) (flags : Flags) (r : Replies) :
    (∀ (bot : BotAPI) (webhookURL : GoString) (log : List Request) (url : GoString),
      parse (webhookURL ++ utf8 "/" ++ bot.Token) = some url →
      ((∃ err : GoError, (startWithWebHook parse bot webhookURL r log).1 =
          WebHookResult.returned (some err)) ↔
        r.setWebhook ≠ Option.none ∨ r.getWebhookInfo.2 ≠ Option.none ∨
          r.getWebhookInfo.1.LastErrorDate ≠ 0) ∧
      ((startWithWebHook parse bot webhookURL r log).1 = WebHookResult.returned Option.none ↔
        r.setWebhook = Option.none ∧ r.getWebhookInfo.2 = Option.none ∧
          r.getWebhookInfo.1.LastErrorDate = 0) ∧
      ((startWithWebHook parse bot webhookURL r log).2 = log ++ [Request.setWebhook url] ∨
        (startWithWebHook parse bot webhookURL r log).2 =
          log ++ [Request.setWebhook url, Request.getWebhookInfo]) ∧
      (url = webhookURL ++ utf8 "/" ++ bot.Token →
        Request.setWebhook (webhookURL ++ utf8 "/" ++ bot.Token) ∈
          (startWithWebHook parse bot webhookURL r log).2)) ∧
    (flags.token ≠ [] → r.newBotAPI.2 = Option.none → flags.webhookBaseURL ≠ [] →
      ∀ err : GoError,
        (startWithWebHook parse { r.newBotAPI.1 with Debug := flags.debug }
          flags.webhookBaseURL r [Request.newBotAPI flags.token]).1 =
            WebHookResult.returned (some err) →
        (main parse flags r).1 = Outcome.fatal err.message ∧
          ∀ q ∈ (main parse flags r).2,
            (∀ network address : GoString, q ≠ Request.listen network address) ∧
            (∀ server : Server, q ≠ Request.serve server) ∧
            (∀ pattern : GoString, q ≠ Request.listenForWebhook pattern)) := by
  constructor
  · intro bot webhookURL log url hp
    obtain ⟨h1, h2, h3⟩ := startWithWebHook_parsed parse bot webhookURL r log url hp
    refine ⟨h1, h2, h3, ?_⟩
    intro hsame
    rw [← hsame]
    rcases h3 with h | h <;> rw [h] <;> simp
  · intro htoken hbot hurl err herr
    have hmain := main_webhook_error parse flags r err htoken hbot hurl herr
    refine ⟨by rw [hmain], ?_⟩
    intro q hq
    rw [hmain] at hq
    simp only at hq
    rcases startWithWebHook_log parse { r.newBotAPI.1 with Debug := flags.debug }
      flags.webhookBaseURL r [Request.newBotAPI flags.token] q hq with h | ⟨url, h⟩ | h
    · rw [List.mem_singleton] at h
      subst h
      exact ⟨fun _ _ h => Request.noConfusion h, fun _ h => Request.noConfusion h,
        fun _ h => Request.noConfusion h⟩
    · subst h
      exact ⟨fun _ _ h => Request.noConfusion h, fun _ h => Request.noConfusion h,
        fun _ h => Request.noConfusion h⟩
    · subst h
      exact ⟨fun _ _ h => Request.noConfusion h, fun _ h => Request.noConfusion h,
        fun _ h => Request.noConfusion h⟩

/-- The amended C6 in webhook mode with a link that parses unchanged, when
the webhook info reports a delivery error: the set-webhook request carries
`https://bot.example/123:abc`, and `main` ends fatally with the message built
by `startWithWebHook`, no request of its log being a listener request. -/
theorem startWithWebHook_spec_witness :
    Request.setWebhook (utf8 "https://bot.example" ++ utf8 "/" ++ sampleBot.Token) ∈
        (startWithWebHook sampleParse sampleBot (utf8 "https://bot.example")
          deliveryErrorReplies []).2 ∧
      (main sampleParse webhookFlags deliveryErrorReplies).1 =
        Outcome.fatal (utf8 "Callback to telegram failed: timeout ") ∧
      ∀ q ∈ (main sampleParse webhookFlags deliveryErrorReplies).2,
        (∀ network address : GoString, q ≠ Request.listen network address) ∧
        (∀ server : Server, q ≠ Request.serve server) ∧
        (∀ pattern : GoString, q ≠ Request.listenForWebhook pattern) :=
  ⟨((startWithWebHook_spec sampleParse webhookFlags deliveryErrorReplies).1 sampleBot
      (utf8 "https://bot.example") [] (utf8 "https://bot.example/123:abc")
      (by decide)).2.2.2 (by decide),
    (startWithWebHook_spec sampleParse webhookFlags deliveryErrorReplies).2
      (by decide) rfl (by decide)
      { message := utf8 "Callback to telegram failed: timeout " } (by decide)⟩

end Hashnodebot
